import Mathlib

/-!
Shallow embedding of `orca_mkinput.py`, the ORCA input-file template
assembler, together with theorems checking the natural-language
specification of the repository against this code.

Conventions of the embedding:
* Python strings that may be `None` are modelled as `String`, with `""`
  standing for `None`; every use of such a value in the source is a
  truthiness test (`if method:`), which coincides with non-emptiness.
* Python `int` is modelled as `Int`; `str(n)` is `toString n`.
* Python lists are Lean lists; imperative `append`/`+=` loops become
  list concatenation in the same order.
* File contents are modelled by an explicit file system
  `fs : String → Option String`; a raised exception becomes
  `Except.error` carrying the exception message.
* `str.lower()` is ASCII lowering (`Char.toLower`), which agrees with
  Python on all inputs relevant to the case-insensitive marker
  comparisons made by the source.
-/

namespace OrcaMkInput

/-- Characters stripped by Python `str.rstrip()` / `str.strip()` and used as
separators by `str.split()` with no argument (the Python whitespace set). -/
def pyIsSpace (c : Char) : Bool :=
  let v := c.val
  (0x09 ≤ v && v ≤ 0x0d) || (0x1c ≤ v && v ≤ 0x1f) || v = 0x20 || v = 0x85 ||
  v = 0xa0 || v = 0x1680 || (0x2000 ≤ v && v ≤ 0x200a) || v = 0x2028 ||
  v = 0x2029 || v = 0x202f || v = 0x205f || v = 0x3000

/-- Python `str.rstrip()` with no argument: drop trailing whitespace. -/
def pyRstrip (s : String) : String :=
  String.mk ((s.data.reverse.dropWhile pyIsSpace).reverse)

/-- Python `str.strip()` with no argument: drop leading and trailing whitespace. -/
def pyStrip (s : String) : String :=
  String.mk (((s.data.dropWhile pyIsSpace).reverse.dropWhile pyIsSpace).reverse)

/-- Python `str.split()` with no argument: split on whitespace runs,
discarding empty pieces. -/
def pySplitWs (s : String) : List String :=
  (s.split (fun c => pyIsSpace c)).filter (fun t => t ≠ "")

/-- Python `str.lower()` (ASCII case mapping). -/
def pyLower (s : String) : String :=
  String.mk (s.data.map Char.toLower)

/-- Python `str.startswith(pfx)`: character-level prefix test. -/
def pyStartsWith (s pfx : String) : Bool :=
  List.isPrefixOf pfx.data s.data

/-- Embedding of `_parse_extras` (lines 41–50): split each item on commas and
whitespace, strip, keep the non-empty tokens in order. -/
def parse_extras (extra_list : List String) : List String :=
  ((extra_list.map (fun item => pySplitWs (item.replace "," " "))).flatten.map
    pyStrip).filter (fun t => t ≠ "")

/-- Embedding of `_join_bang_tokens` (lines 52–53): prefix `"! "` and
space-join the truthy (non-empty) tokens. -/
def join_bang_tokens (tokens : List String) : String :=
  "! " ++ String.intercalate " " (tokens.filter (fun t => t ≠ ""))

/-- Embedding of the `JOB_MAP` dictionary (lines 55–65). -/
def JOB_MAP : List (String × List String) :=
  [("sp", []), ("opt", ["Opt"]), ("freq", ["Freq"]), ("optfreq", ["Opt", "Freq"]),
   ("optts", ["OptTS"]), ("tddft", []), ("neb", ["NEB"]), ("nebci", ["NEB-CI"]),
   ("nebts", ["NEB-TS"])]

/-- Embedding of `JOB_MAP.get(job, [])` (line 79). -/
def jobKeywords (job : String) : List String :=
  (JOB_MAP.lookup job).getD []

/-- The test on line 77 of the source: some extra token case-insensitively
starts with `tightscf` or `loosescf`, so the default `TightSCF` is skipped. -/
def skipsConvDefault (extra_tokens : List String) : Bool :=
  extra_tokens.any
    (fun t => pyStartsWith (pyLower t) "tightscf" || pyStartsWith (pyLower t) "loosescf")

/-- The token list built by `_make_bang_line` (lines 68–87) before joining;
the imperative appends become concatenation in the same order. -/
def make_bang_tokens (method basis job grid cpcm smd : String)
    (extra_tokens force_tokens : List String) : List String :=
  (if method ≠ "" then [method] else []) ++
  (if basis ≠ "" ∧ basis ∉ ["None", "-", "NA"] then [basis] else []) ++
  (if grid ≠ "" then [grid] else []) ++
  (if skipsConvDefault extra_tokens then [] else ["TightSCF"]) ++
  jobKeywords job ++
  (if cpcm ≠ "" then ["CPCM(" ++ cpcm ++ ")"] else []) ++
  (if smd ≠ "" then ["SMD(" ++ smd ++ ")"] else []) ++
  extra_tokens ++
  force_tokens

/-- Embedding of `_make_bang_line` (lines 68–87). -/
def make_bang_line (method basis job grid cpcm smd : String)
    (extra_tokens force_tokens : List String) : String :=
  join_bang_tokens (make_bang_tokens method basis job grid cpcm smd extra_tokens force_tokens)

example : make_bang_line "wB97X-D4" "def2-TZVPPD" "optfreq" "DEFGRID3" "" "" [] []
    = "! wB97X-D4 def2-TZVPPD DEFGRID3 TightSCF Opt Freq" := by decide

example : pyRstrip "abc \t\n" = "abc" := by decide

/-- Embedding of `_pal_block` (lines 89–90). -/
def pal_block (pal : Int) : String :=
  "%pal\n  nprocs " ++ toString pal ++ "\nend"

/-- Embedding of `_maxcore_block` (lines 92–93). -/
def maxcore_block (mb : Int) : String :=
  "%MaxCore " ++ toString mb

/-- Embedding of `_scf_block` (lines 95–96). -/
def scf_block (maxiter : Int) : String :=
  "%scf\n  MaxIter " ++ toString maxiter ++ "\nend"

/-- Embedding of `_tddft_block` (lines 98–99). -/
def tddft_block (nroots : Int) : String :=
  "%tddft\n  nroots " ++ toString nroots ++ "\nend"

/-- The implicit `moread` injection shared by `write_single_step`
(lines 137–138) and `write_compound` (lines 193–195): when a restart file is
given and no extra token is case-insensitively `moread`, append `moread`. -/
def extend_moread (moinp : String) (extra_tokens : List String) : List String :=
  if moinp ≠ "" ∧ extra_tokens.any (fun t => pyLower t == "moread") = false then
    extra_tokens ++ ["moread"]
  else
    extra_tokens

/-- Content composed by `write_single_step` (lines 130–166): the exact string
written to the output file. -/
def write_single_step_content (xyzfile : String) (charge mult : Int)
    (method basis job grid cpcm smd : String) (extra : List String)
    (pal maxcore_mb nstates : Int) (moinp : String) (pal_style : String)
    (extra_blocks : List String) : String :=
  let extra_tokens := extend_moread moinp (parse_extras extra)
  let header0 := make_bang_line method basis job grid cpcm smd extra_tokens []
  let header := if pal_style = "bang" then header0 ++ "\n\n! PAL" ++ toString pal else header0
  let blocks :=
    (if pal_style = "bang" then [] else [pal_block pal]) ++
    [maxcore_block maxcore_mb] ++
    (if job = "tddft" then [tddft_block nstates] else []) ++
    [scf_block 300]
  let content :=
    [header] ++
    (if blocks ≠ [] then [String.intercalate "\n" blocks] else []) ++
    (if moinp ≠ "" then ["%moinp \"" ++ moinp ++ "\""] else []) ++
    (if extra_blocks ≠ [] then [String.intercalate "\n" extra_blocks] else []) ++
    ["\n* xyzfile " ++ toString charge ++ " " ++ toString mult ++ " " ++ xyzfile ++ "\n\n"]
  String.intercalate "\n\n" content

/-- Embedding of `write_single_step` (lines 130–167): the file write is
modelled as the pair of the output path and the composed content. -/
def write_single_step (outpath xyzfile : String) (charge mult : Int)
    (method basis job grid cpcm smd : String) (extra : List String)
    (pal maxcore_mb nstates : Int) (moinp : String) (pal_style : String)
    (extra_blocks : List String) : String × String :=
  (outpath,
   write_single_step_content xyzfile charge mult method basis job grid cpcm smd
     extra pal maxcore_mb nstates moinp pal_style extra_blocks)

/-- A file system: maps a path to the file's text when the file exists. -/
def FileSys : Type := String → Option String

/-- Embedding of `_read_text_file` (lines 104–110): raise `FileNotFoundError`
naming the path when the file is absent, else return the text with Python
`rstrip()` applied and one newline re-appended. -/
def read_text_file (fs : FileSys) (path : String) : Except String String :=
  match fs path with
  | none => Except.error ("extra block file not found: " ++ path)
  | some text => Except.ok (pyRstrip text ++ "\n")

/-- The pure text transformation inside `_read_text_file` (lines 109–110). -/
def read_text_file_transform (text : String) : String :=
  pyRstrip text ++ "\n"

/-- Embedding of `_collect_global_extra_blocks` (lines 112–117): read each
listed file in order; the first missing file raises and aborts collection. -/
def collect_global_extra_blocks (fs : FileSys) : List String → Except String (List String)
  | [] => Except.ok []
  | f :: rest =>
    match read_text_file fs f with
    | Except.error e => Except.error e
    | Except.ok b =>
      match collect_global_extra_blocks fs rest with
      | Except.error e => Except.error e
      | Except.ok bs => Except.ok (b :: bs)

/-- Embedding of the single-file single-step driver path of `main`
(lines 508–520): global literal blocks are collected first (raising on a
missing file), then `write_single_step` composes the whole content in memory
and performs the one write, modelled as the returned (path, content) pair. -/
def assemble_single_document (fs : FileSys) (outpath xyzfile : String)
    (charge mult : Int) (method basis job grid cpcm smd : String)
    (extra : List String) (pal maxcore_mb nstates : Int) (moinp : String)
    (pal_style : String) (extra_block_files : List String) :
    Except String (String × String) :=
  match collect_global_extra_blocks fs extra_block_files with
  | Except.error e => Except.error e
  | Except.ok blocks =>
    Except.ok (write_single_step outpath xyzfile charge mult method basis job grid
      cpcm smd extra pal maxcore_mb nstates moinp pal_style blocks)

/-- One `%compound` step as collected by `_collect_compound_steps`
(lines 337–353): the dict with keys method, basis, job, grid, cpcm, smd,
extra_tokens, moinp, nstates. -/
structure Step where
  method : String
  basis : String
  job : String
  grid : String
  cpcm : String
  smd : String
  extra_tokens : List String
  moinp : String
  nstates : Int
deriving Repr, DecidableEq

/-- The directive line of a compound step (lines 193–198 of
`write_compound`): inject `moread` when a restart file is present and the
extras lack it, then build the bang line. -/
def compound_bang (st : Step) : String :=
  if st.moinp ≠ "" ∧ st.extra_tokens.any (fun t => pyLower t == "moread") = false then
    make_bang_line st.method st.basis st.job st.grid st.cpcm st.smd
      (st.extra_tokens ++ ["moread"]) []
  else
    make_bang_line st.method st.basis st.job st.grid st.cpcm st.smd
      st.extra_tokens []

/-- One structural element appended to the compound document by
`write_compound` (lines 170–222); `renderItem` gives its exact text. -/
inductive CompItem where
  | palBangItem (pal : Int)
  | palBlockItem (pal : Int)
  | maxcoreItem (mb : Int)
  | globalLiteral (text : String)
  | compoundKw
  | newStep
  | bangItem (line : String)
  | moinpItem (path : String)
  | tddftItem (nroots : Int)
  | scfItem
  | literalItem (text : String)
  | geomBinding (charge mult : Int) (xyz : String)
  | stepEnd
  | endRun
deriving Repr, DecidableEq

/-- The exact text of each compound-document element, as written by
`write_compound`. -/
def renderItem : CompItem → String
  | CompItem.palBangItem pal => "! PAL" ++ toString pal
  | CompItem.palBlockItem pal => pal_block pal
  | CompItem.maxcoreItem mb => maxcore_block mb
  | CompItem.globalLiteral text => text
  | CompItem.compoundKw => "%compound"
  | CompItem.newStep => "New_step"
  | CompItem.bangItem line => line
  | CompItem.moinpItem path => "%moinp \"" ++ path ++ "\""
  | CompItem.tddftItem nroots => tddft_block nroots
  | CompItem.scfItem => scf_block 300
  | CompItem.literalItem text => text
  | CompItem.geomBinding charge mult xyz =>
      "* xyzfile " ++ toString charge ++ " " ++ toString mult ++ " " ++ xyz ++ "\n"
  | CompItem.stepEnd => "Step_end\n"
  | CompItem.endRun => "EndRun"

/-- Recognizes the geometry-binding element. -/
def isGeomBinding : CompItem → Bool
  | CompItem.geomBinding _ _ _ => true
  | _ => false

/-- Elements appended for one compound step (the loop body of
`write_compound`, lines 191–211); `i` is the 1-based stage index and
`blocks` the per-stage literal blocks (`[]` when absent). -/
def stepItems (i : Nat) (st : Step) (blocks : List String)
    (charge mult : Int) (xyz : String) : List CompItem :=
  [CompItem.newStep, CompItem.bangItem (compound_bang st)] ++
  (if st.moinp ≠ "" then [CompItem.moinpItem st.moinp] else []) ++
  (if st.job = "tddft" then [CompItem.tddftItem st.nstates] else []) ++
  [CompItem.scfItem] ++
  (if blocks ≠ [] then [CompItem.literalItem (pyRstrip (String.intercalate "\n" blocks))] else []) ++
  (if i = 1 then [CompItem.geomBinding charge mult xyz] else []) ++
  [CompItem.stepEnd]

/-- The loop of `write_compound` over `enumerate(steps, start=1)`:
`stepBlocks` models the `step_extra_blocks` dict, `[]` meaning absent. -/
def compStages (i : Nat) (steps : List Step) (stepBlocks : Nat → List String)
    (charge mult : Int) (xyz : String) : List CompItem :=
  match steps with
  | [] => []
  | st :: rest =>
    stepItems i st (stepBlocks i) charge mult xyz ++
    compStages (i + 1) rest stepBlocks charge mult xyz

/-- The `comp` list of `write_compound` (lines 189–212): `%compound` keyword,
the per-stage elements, `EndRun`. -/
def compItems (steps : List Step) (stepBlocks : Nat → List String)
    (charge mult : Int) (xyz : String) : List CompItem :=
  CompItem.compoundKw :: compStages 1 steps stepBlocks charge mult xyz ++ [CompItem.endRun]

/-- The global header elements of `write_compound` (lines 178–184). -/
def compoundHeaderItems (pal maxcore_mb : Int) (pal_style : String) : List CompItem :=
  (if pal_style = "bang" then [CompItem.palBangItem pal]
   else if pal_style = "block" then [CompItem.palBlockItem pal]
   else []) ++
  [CompItem.maxcoreItem maxcore_mb]

/-- The whole compound document emitted by `write_compound` as a structural
element list: header, then the global literal blocks (lines 219–220), then
the `%compound` body. -/
def compoundDocumentItems (steps : List Step) (stepBlocks : Nat → List String)
    (charge mult : Int) (xyz : String) (pal maxcore_mb : Int)
    (pal_style : String) (globalBlocks : List String) : List CompItem :=
  compoundHeaderItems pal maxcore_mb pal_style ++
  (if globalBlocks ≠ [] then
     [CompItem.globalLiteral (pyRstrip (String.intercalate "\n" globalBlocks))]
   else []) ++
  compItems steps stepBlocks charge mult xyz

/-- The text written by `write_compound` (lines 213–221): the stripped
header, the global blocks, and the newline-joined `comp` body. -/
def write_compound_text (steps : List Step) (stepBlocks : Nat → List String)
    (charge mult : Int) (xyz : String) (pal maxcore_mb : Int)
    (pal_style : String) (globalBlocks : List String) : String :=
  let headerLines :=
    (if pal_style = "bang" then ["! PAL" ++ toString pal]
     else if pal_style = "block" then [pal_block pal]
     else []) ++ [maxcore_block maxcore_mb]
  let header := pyStrip (String.intercalate "\n" headerLines)
  let body := String.intercalate "\n"
    ((compItems steps stepBlocks charge mult xyz).map renderItem)
  (if header ≠ "" then header ++ "\n\n" else "") ++
  (if globalBlocks ≠ [] then pyRstrip (String.intercalate "\n" globalBlocks) ++ "\n\n" else "") ++
  body ++ "\n"

/-! ### Spec-side definitions (written from the specification's words, for
refinement comparison against the source embedding) -/

/-- Token list as the spec describes it, word for word: method token (if
present), basis token (unless absent or a sentinel), grid token (if
non-empty), default convergence token TightSCF (unless skipped per the
override rule), job-kind keyword(s) from the fixed lookup table,
CPCM(solvent) if set, SMD(solvent) if set, user extra tokens in supplied
order, forced tokens last. -/
def specOrderedTokens (method basis job grid cpcm smd : String)
    (extra_tokens force_tokens : List String) : List String :=
  (if method ≠ "" then [method] else []) ++
  (if basis = "" ∨ basis ∈ ["None", "-", "NA"] then [] else [basis]) ++
  (if grid = "" then [] else [grid]) ++
  (if skipsConvDefault extra_tokens then [] else ["TightSCF"]) ++
  jobKeywords job ++
  (if cpcm ≠ "" then ["CPCM(" ++ cpcm ++ ")"] else []) ++
  (if smd ≠ "" then ["SMD(" ++ smd ++ ")"] else []) ++
  extra_tokens ++
  force_tokens

/-- Directive line as the spec describes it: the fixed `"! "` marker, tokens
space-joined, falsy tokens dropped. -/
def specDirectiveLine (method basis job grid cpcm smd : String)
    (extra_tokens force_tokens : List String) : String :=
  "! " ++ String.intercalate " "
    ((specOrderedTokens method basis job grid cpcm smd extra_tokens force_tokens).filter
      (fun t => t ≠ ""))

/-- Literal-block normalization as the spec describes it: trim exactly the
trailing newline characters and re-append one newline, leaving every other
byte (including trailing non-newline whitespace) unmodified. -/
def specTrailingNewlineNormalize (text : String) : String :=
  String.mk ((text.data.reverse.dropWhile (fun c => c = '\n')).reverse) ++ "\n"

/-! ### Helper lemmas -/

/-- A `CPCM(...)` solvent token is never the bare keyword `Opt`. -/
lemma cpcm_token_ne_opt (c : String) : ("CPCM(" ++ c ++ ")") ≠ "Opt" := by
  intro h
  have hd := congrArg String.data h
  simp at hd

/-- An `SMD(...)` solvent token is never the bare keyword `Opt`. -/
lemma smd_token_ne_opt (s : String) : ("SMD(" ++ s ++ ")") ≠ "Opt" := by
  intro h
  have hd := congrArg String.data h
  simp at hd

/-- A `CPCM(...)` solvent token is never case-insensitively `moread`. -/
lemma cpcm_token_not_moread (c : String) : (pyLower ("CPCM(" ++ c ++ ")") == "moread") = false := by
  rw [beq_eq_false_iff_ne]
  intro h
  have hd := congrArg String.data h
  simp [pyLower] at hd

/-- An `SMD(...)` solvent token is never case-insensitively `moread`. -/
lemma smd_token_not_moread (s : String) : (pyLower ("SMD(" ++ s ++ ")") == "moread") = false := by
  rw [beq_eq_false_iff_ne]
  intro h
  have hd := congrArg String.data h
  simp [pyLower] at hd

/-- Every keyword list stored in `JOB_MAP` is one of the eight fixed lists. -/
lemma lookup_JOB_MAP_cases (j : String) (v : List String)
    (h : List.lookup j JOB_MAP = some v) :
    v = [] ∨ v = ["Opt"] ∨ v = ["Freq"] ∨ v = ["Opt", "Freq"] ∨ v = ["OptTS"] ∨
    v = ["NEB"] ∨ v = ["NEB-CI"] ∨ v = ["NEB-TS"] := by
  simp only [JOB_MAP, List.lookup] at h
  repeat' split at h
  all_goals simp_all

/-- No job-kind keyword is case-insensitively `moread`. -/
lemma jobKeywords_no_moread (j : String) :
    List.countP (fun t => pyLower t == "moread") (jobKeywords j) = 0 := by
  unfold jobKeywords
  rcases h : List.lookup j JOB_MAP with _ | v
  · simp
  · rcases lookup_JOB_MAP_cases j v h with rfl | rfl | rfl | rfl | rfl | rfl | rfl | rfl <;> decide

/-- Counting over a conditional singleton whose element fails the predicate. -/
lemma countP_ite_singleton_nil {α : Type} (c : Prop) [Decidable c] (a : α)
    (p : α → Bool) (h : p a = false) :
    List.countP p (if c then [a] else []) = 0 := by
  split <;> simp [h]

/-! ### Claim theorems -/

/-- C1: for every JobSpec, the directive line built by `_make_bang_line`
consists of, in this exact order, the method token (if present), the basis
token (unless absent or a sentinel), the grid token (if non-empty), the
default convergence token TightSCF (unless skipped per the override rule),
the job-kind keyword(s) from the fixed lookup table, CPCM(solvent) if set,
SMD(solvent) if set, the user extra tokens in supplied order, and forced
tokens last; the line is prefixed with `"! "` and tokens are space-joined
with falsy tokens dropped. In particular the spec's worked example holds:
method wB97X-D4, basis def2-TZVPPD, jobKind optfreq, grid DEFGRID3, no
solvents, no extras gives
`! wB97X-D4 def2-TZVPPD DEFGRID3 TightSCF Opt Freq`. -/
theorem directive_line_token_order :
    (∀ (m b j g c s : String) (e f : List String),
      make_bang_line m b j g c s e f = specDirectiveLine m b j g c s e f) ∧
    make_bang_line "wB97X-D4" "def2-TZVPPD" "optfreq" "DEFGRID3" "" "" [] [] =
      "! wB97X-D4 def2-TZVPPD DEFGRID3 TightSCF Opt Freq" := by
  constructor
  · intro m b j g c s e f
    have hbasis : (if b ≠ "" ∧ b ∉ ["None", "-", "NA"] then [b] else []) =
        (if b = "" ∨ b ∈ ["None", "-", "NA"] then [] else [b]) := by
      by_cases h1 : b = "" <;> by_cases h2 : b ∈ ["None", "-", "NA"] <;> simp [h1, h2]
    have hgrid : (if g ≠ "" then [g] else []) = (if g = "" then [] else [g]) := by
      by_cases h : g = "" <;> simp [h]
    simp only [make_bang_line, join_bang_tokens, make_bang_tokens, specDirectiveLine,
      specOrderedTokens, hbasis, hgrid]
  · decide

/-- C3: whenever some extra token case-insensitively starts with `tightscf`
or `loosescf` (in particular a token case-insensitively equal to
`tightscf`), `_make_bang_line` does not insert the automatic default
`TightSCF` token; conversely, when no such token is present, the default
`TightSCF` is inserted. -/
theorem convergence_override_no_duplicate :
    ∀ (m b j g c s : String) (e f : List String),
      ((∃ t ∈ e, pyStartsWith (pyLower t) "tightscf" = true ∨
          pyStartsWith (pyLower t) "loosescf" = true) →
        make_bang_tokens m b j g c s e f =
          (if m ≠ "" then [m] else []) ++
          (if b ≠ "" ∧ b ∉ ["None", "-", "NA"] then [b] else []) ++
          (if g ≠ "" then [g] else []) ++
          jobKeywords j ++
          (if c ≠ "" then ["CPCM(" ++ c ++ ")"] else []) ++
          (if s ≠ "" then ["SMD(" ++ s ++ ")"] else []) ++ e ++ f) ∧
      ((∀ t ∈ e, ¬ (pyStartsWith (pyLower t) "tightscf" = true ∨
          pyStartsWith (pyLower t) "loosescf" = true)) →
        make_bang_tokens m b j g c s e f =
          (if m ≠ "" then [m] else []) ++
          (if b ≠ "" ∧ b ∉ ["None", "-", "NA"] then [b] else []) ++
          (if g ≠ "" then [g] else []) ++
          ["TightSCF"] ++
          jobKeywords j ++
          (if c ≠ "" then ["CPCM(" ++ c ++ ")"] else []) ++
          (if s ≠ "" then ["SMD(" ++ s ++ ")"] else []) ++ e ++ f) ∧
      (∀ t ∈ e, pyLower t = "tightscf" → skipsConvDefault e = true) := by
  intro m b j g c s e f
  refine ⟨?_, ?_, ?_⟩
  · rintro ⟨t, ht, hp⟩
    have hskip : skipsConvDefault e = true := by
      simp only [skipsConvDefault, List.any_eq_true]
      refine ⟨t, ht, ?_⟩
      rcases hp with h | h <;> simp [h]
    simp [make_bang_tokens, hskip]
  · intro hall
    have hskip : skipsConvDefault e = false := by
      simp only [skipsConvDefault, List.any_eq_false]
      intro t ht
      have := hall t ht
      simp only [Bool.or_eq_true]
      tauto
    simp [make_bang_tokens, hskip]
  · intro t ht hlow
    simp only [skipsConvDefault, List.any_eq_true]
    refine ⟨t, ht, ?_⟩
    rw [hlow]
    decide

/-- Witness for C3 at a concrete input: an extra token `TightSCF` suppresses
the automatic default, so the token appears only once. -/
theorem convergence_override_no_duplicate_witness :
    make_bang_tokens "wB97X-D4" "" "sp" "" "" "" ["TightSCF"] [] = ["wB97X-D4", "TightSCF"] := by
  have h := (convergence_override_no_duplicate "wB97X-D4" "" "sp" "" "" "" ["TightSCF"] []).1
    ⟨"TightSCF", by decide, Or.inl (by decide)⟩
  rw [h]
  decide

/-- C5 counterexample: with jobKind = opt and the extra tokens also
containing `Opt` (deduplication is never performed), the directive line
contains the keyword `Opt` twice, refuting the claim that it appears
exactly once for every JobSpec with jobKind = opt. -/
theorem opt_keyword_duplicate_counterexample :
    make_bang_tokens "wB97X-D4" "" "opt" "" "" "" ["Opt"] [] =
      ["wB97X-D4", "TightSCF", "Opt", "Opt"] ∧
    List.countP (fun t => t == "Opt") (make_bang_tokens "wB97X-D4" "" "opt" "" "" "" ["Opt"] []) = 2 ∧
    make_bang_line "wB97X-D4" "" "opt" "" "" "" ["Opt"] [] = "! wB97X-D4 TightSCF Opt Opt" := by
  refine ⟨by decide, by decide, by decide⟩

/-- C5 amended: for every JobSpec with jobKind = opt in which no other
configured token (method, basis, grid, extras, forced tokens) is itself the
string `Opt`, the directive token list contains `Opt` exactly once,
positioned after the basis, grid and convergence tokens and before any
solvent tokens. -/
theorem opt_keyword_once_amended :
    ∀ (m b g c s : String) (e f : List String),
      m ≠ "Opt" → b ≠ "Opt" → g ≠ "Opt" → "Opt" ∉ e → "Opt" ∉ f →
      make_bang_tokens m b "opt" g c s e f =
        ((if m ≠ "" then [m] else []) ++
         (if b ≠ "" ∧ b ∉ ["None", "-", "NA"] then [b] else []) ++
         (if g ≠ "" then [g] else []) ++
         (if skipsConvDefault e then [] else ["TightSCF"])) ++
        ["Opt"] ++
        ((if c ≠ "" then ["CPCM(" ++ c ++ ")"] else []) ++
         (if s ≠ "" then ["SMD(" ++ s ++ ")"] else []) ++ e ++ f) ∧
      List.countP (fun t => t == "Opt") (make_bang_tokens m b "opt" g c s e f) = 1 := by
  intro m b g c s e f hm hb hg he hf
  have hkey : make_bang_tokens m b "opt" g c s e f =
      ((if m ≠ "" then [m] else []) ++
       (if b ≠ "" ∧ b ∉ ["None", "-", "NA"] then [b] else []) ++
       (if g ≠ "" then [g] else []) ++
       (if skipsConvDefault e then [] else ["TightSCF"])) ++
      ["Opt"] ++
      ((if c ≠ "" then ["CPCM(" ++ c ++ ")"] else []) ++
       (if s ≠ "" then ["SMD(" ++ s ++ ")"] else []) ++ e ++ f) := by
    simp only [make_bang_tokens, List.append_assoc]
    rfl
  refine ⟨hkey, ?_⟩
  have pm : List.countP (fun t => t == "Opt") (if m ≠ "" then [m] else []) = 0 :=
    countP_ite_singleton_nil _ m _ (beq_eq_false_iff_ne.mpr hm)
  have pb : List.countP (fun t => t == "Opt") (if b ≠ "" ∧ b ∉ ["None", "-", "NA"] then [b] else []) = 0 :=
    countP_ite_singleton_nil _ b _ (beq_eq_false_iff_ne.mpr hb)
  have pg : List.countP (fun t => t == "Opt") (if g ≠ "" then [g] else []) = 0 :=
    countP_ite_singleton_nil _ g _ (beq_eq_false_iff_ne.mpr hg)
  have pt : List.countP (fun t => t == "Opt") (if skipsConvDefault e then [] else ["TightSCF"]) = 0 := by
    split <;> decide
  have pc : List.countP (fun t => t == "Opt") (if c ≠ "" then ["CPCM(" ++ c ++ ")"] else []) = 0 :=
    countP_ite_singleton_nil _ _ _ (beq_eq_false_iff_ne.mpr (cpcm_token_ne_opt c))
  have ps : List.countP (fun t => t == "Opt") (if s ≠ "" then ["SMD(" ++ s ++ ")"] else []) = 0 :=
    countP_ite_singleton_nil _ _ _ (beq_eq_false_iff_ne.mpr (smd_token_ne_opt s))
  have pe : List.countP (fun t => t == "Opt") e = 0 := by
    refine List.countP_eq_zero.mpr ?_
    intro t ht
    simp only [beq_iff_eq]
    intro h
    exact he (h ▸ ht)
  have pf : List.countP (fun t => t == "Opt") f = 0 := by
    refine List.countP_eq_zero.mpr ?_
    intro t ht
    simp only [beq_iff_eq]
    intro h
    exact hf (h ▸ ht)
  rw [hkey]
  simp only [List.countP_append, pm, pb, pg, pt, pc, ps, pe, pf]
  decide

/-- Witness for the amended C5 at a concrete JobSpec. -/
theorem opt_keyword_once_amended_witness :
    make_bang_tokens "wB97X-D4" "def2-TZVP" "opt" "DEFGRID3" "water" "" [] [] =
      (["wB97X-D4"] ++ ["def2-TZVP"] ++ ["DEFGRID3"] ++ ["TightSCF"]) ++ ["Opt"] ++
        (["CPCM(water)"] ++ [] ++ [] ++ []) ∧
    List.countP (fun t => t == "Opt")
      (make_bang_tokens "wB97X-D4" "def2-TZVP" "opt" "DEFGRID3" "water" "" [] []) = 1 := by
  have h := opt_keyword_once_amended "wB97X-D4" "def2-TZVP" "DEFGRID3" "water" "" [] []
    (by decide) (by decide) (by decide) (by decide) (by decide)
  refine ⟨?_, h.2⟩
  rw [h.1]
  decide

/-- C9: when both a CPCM solvent and an SMD solvent are set, the builder does
not reject the combination; the directive token list contains both solvent
tokens, with `CPCM(...)` immediately preceding `SMD(...)`. -/
theorem cpcm_smd_both_tokens :
    ∀ (m b j g c s : String) (e f : List String), c ≠ "" → s ≠ "" →
      make_bang_tokens m b j g c s e f =
        ((if m ≠ "" then [m] else []) ++
         (if b ≠ "" ∧ b ∉ ["None", "-", "NA"] then [b] else []) ++
         (if g ≠ "" then [g] else []) ++
         (if skipsConvDefault e then [] else ["TightSCF"]) ++
         jobKeywords j) ++
        ["CPCM(" ++ c ++ ")", "SMD(" ++ s ++ ")"] ++ (e ++ f) := by
  intro m b j g c s e f hc hs
  simp [make_bang_tokens, hc, hs, List.append_assoc]

/-- Witness for C9 at a concrete JobSpec with both solvents set. -/
theorem cpcm_smd_both_tokens_witness :
    make_bang_tokens "wB97X-D4" "def2-TZVPPD" "sp" "" "water" "toluene" [] [] =
      (["wB97X-D4"] ++ ["def2-TZVPPD"] ++ [] ++ ["TightSCF"] ++ []) ++
      ["CPCM(water)", "SMD(toluene)"] ++ ([] ++ []) := by
  have h := cpcm_smd_both_tokens "wB97X-D4" "def2-TZVPPD" "sp" "" "water" "toluene" [] []
    (by decide) (by decide)
  rw [h]
  decide

/-- C10: the job-kind lookup is total; for any job-kind string outside the
enumerated set, `JOB_MAP.get(job, [])` yields the empty keyword list, and the
directive line is the same as for jobKind `sp` (whose keyword list is also
empty) — no exception and no keyword tokens. -/
theorem unknown_jobkind_safe :
    ∀ job : String,
      job ∉ ["sp", "opt", "freq", "optfreq", "optts", "tddft", "neb", "nebci", "nebts"] →
      List.lookup job JOB_MAP = none ∧ jobKeywords job = [] ∧
      ∀ (m b g c s : String) (e f : List String),
        make_bang_line m b job g c s e f = make_bang_line m b "sp" g c s e f := by
  intro job h
  simp only [List.mem_cons, not_or] at h
  obtain ⟨h1, h2, h3, h4, h5, h6, h7, h8, h9, -⟩ := h
  have hlook : List.lookup job JOB_MAP = none := by
    simp [JOB_MAP, List.lookup, beq_eq_false_iff_ne.mpr h1, beq_eq_false_iff_ne.mpr h2,
      beq_eq_false_iff_ne.mpr h3, beq_eq_false_iff_ne.mpr h4, beq_eq_false_iff_ne.mpr h5,
      beq_eq_false_iff_ne.mpr h6, beq_eq_false_iff_ne.mpr h7, beq_eq_false_iff_ne.mpr h8,
      beq_eq_false_iff_ne.mpr h9]
  have hkw : jobKeywords job = [] := by simp [jobKeywords, hlook]
  refine ⟨hlook, hkw, ?_⟩
  intro m b g c s e f
  have hsp : jobKeywords "sp" = [] := rfl
  simp only [make_bang_line, make_bang_tokens, hkw, hsp]

/-- Witness for C10 at the concrete unknown job kind `scan`. -/
theorem unknown_jobkind_safe_witness :
    List.lookup "scan" JOB_MAP = none ∧ jobKeywords "scan" = [] ∧
    make_bang_line "wB97X-D4" "def2-TZVPPD" "scan" "DEFGRID3" "" "" [] [] =
      make_bang_line "wB97X-D4" "def2-TZVPPD" "sp" "DEFGRID3" "" "" [] [] := by
  have h := unknown_jobkind_safe "scan" (by decide)
  exact ⟨h.1, h.2.1, h.2.2 "wB97X-D4" "def2-TZVPPD" "DEFGRID3" "" "" [] []⟩

/-- C4 counterexample: a single-step input with method `moread`, restart file
supplied and no `moread` among the extras produces a directive line with two
tokens case-insensitively equal to `moread`, refuting the claim that the
rendered directive line contains exactly one restart-read token. -/
theorem moread_duplicate_counterexample :
    extend_moread "prev.gbw" (parse_extras []) = ["moread"] ∧
    make_bang_tokens "moread" "def2-TZVPPD" "sp" "DEFGRID3" "" ""
        (extend_moread "prev.gbw" (parse_extras [])) [] =
      ["moread", "def2-TZVPPD", "DEFGRID3", "TightSCF", "moread"] ∧
    List.countP (fun t => pyLower t == "moread")
      (make_bang_tokens "moread" "def2-TZVPPD" "sp" "DEFGRID3" "" ""
        (extend_moread "prev.gbw" (parse_extras [])) []) = 2 := by
  refine ⟨by decide, by decide, by decide⟩

/-- C4 amended: when a restart file is supplied, the extra tokens contain no
token case-insensitively equal to `moread`, and none of the method, basis or
grid tokens is itself case-insensitively `moread`, the directive token list
contains exactly one token case-insensitively equal to `moread`, appended
after the user extra tokens; when the extras already contain one, no
additional token is appended. The same injection is used verbatim by the
compound writer's per-stage directive line. -/
theorem moread_injection_amended (m b j g c s : String) (e : List String) (moinp : String) :
    (moinp ≠ "" → e.any (fun t => pyLower t == "moread") = false →
      pyLower m ≠ "moread" → pyLower b ≠ "moread" → pyLower g ≠ "moread" →
      extend_moread moinp e = e ++ ["moread"] ∧
      List.countP (fun t => pyLower t == "moread")
        (make_bang_tokens m b j g c s (extend_moread moinp e) []) = 1) ∧
    (e.any (fun t => pyLower t == "moread") = true → extend_moread moinp e = e) ∧
    (∀ st : Step, compound_bang st =
      make_bang_line st.method st.basis st.job st.grid st.cpcm st.smd
        (extend_moread st.moinp st.extra_tokens) []) := by
  refine ⟨?_, ?_, ?_⟩
  · intro hmo hno hm hb hg
    have hext : extend_moread moinp e = e ++ ["moread"] := by
      simp [extend_moread, hmo, hno]
    refine ⟨hext, ?_⟩
    have pm : List.countP (fun t => pyLower t == "moread") (if m ≠ "" then [m] else []) = 0 :=
      countP_ite_singleton_nil _ m _ (beq_eq_false_iff_ne.mpr hm)
    have pb : List.countP (fun t => pyLower t == "moread")
        (if b ≠ "" ∧ b ∉ ["None", "-", "NA"] then [b] else []) = 0 :=
      countP_ite_singleton_nil _ b _ (beq_eq_false_iff_ne.mpr hb)
    have pg : List.countP (fun t => pyLower t == "moread") (if g ≠ "" then [g] else []) = 0 :=
      countP_ite_singleton_nil _ g _ (beq_eq_false_iff_ne.mpr hg)
    have pt : List.countP (fun t => pyLower t == "moread")
        (if skipsConvDefault (e ++ ["moread"]) then [] else ["TightSCF"]) = 0 := by
      split <;> decide
    have pc : List.countP (fun t => pyLower t == "moread")
        (if c ≠ "" then ["CPCM(" ++ c ++ ")"] else []) = 0 :=
      countP_ite_singleton_nil _ _ _ (cpcm_token_not_moread c)
    have ps : List.countP (fun t => pyLower t == "moread")
        (if s ≠ "" then ["SMD(" ++ s ++ ")"] else []) = 0 :=
      countP_ite_singleton_nil _ _ _ (smd_token_not_moread s)
    have pe : List.countP (fun t => pyLower t == "moread") e = 0 := by
      refine List.countP_eq_zero.mpr ?_
      intro t ht
      have := List.any_eq_false.mp hno t ht
      simpa using this
    have pj := jobKeywords_no_moread j
    simp only [hext, make_bang_tokens, List.countP_append, pm, pb, pg, pt, pc, ps, pj, pe]
    decide
  · intro hsome
    simp [extend_moread, hsome]
  · intro st
    by_cases h : st.moinp ≠ "" ∧ st.extra_tokens.any (fun t => pyLower t == "moread") = false
    · simp [compound_bang, extend_moread, h]
    · simp only [compound_bang, extend_moread, h, if_neg, ite_false]

/-- Witness for the amended C4 at a concrete input with a restart file. -/
theorem moread_injection_amended_witness :
    extend_moread "mol_guess.gbw" ["SlowConv"] = ["SlowConv", "moread"] ∧
    List.countP (fun t => pyLower t == "moread")
      (make_bang_tokens "wB97X-D4" "def2-SVPD" "optfreq" "DEFGRID3" "" "water"
        (extend_moread "mol_guess.gbw" ["SlowConv"]) []) = 1 := by
  have h := (moread_injection_amended "wB97X-D4" "def2-SVPD" "optfreq" "DEFGRID3" ""
      "water" ["SlowConv"] "mol_guess.gbw").1
    (by decide) (by decide) (by decide) (by decide) (by decide)
  exact ⟨h.1, h.2⟩

/-- C6: the single-stage assembler is deterministic in its composed content:
two invocations with identical inputs against two distinct output paths write
byte-identical contents (each to its own path). -/
theorem single_step_content_deterministic :
    ∀ (p1 p2 xyzfile : String) (charge mult : Int) (m b j g c s : String)
      (e : List String) (pal mc ns : Int) (moinp style : String) (blocks : List String),
      p1 ≠ p2 →
      (write_single_step p1 xyzfile charge mult m b j g c s e pal mc ns moinp style blocks).2 =
        (write_single_step p2 xyzfile charge mult m b j g c s e pal mc ns moinp style blocks).2 ∧
      (write_single_step p1 xyzfile charge mult m b j g c s e pal mc ns moinp style blocks).1 = p1 ∧
      (write_single_step p2 xyzfile charge mult m b j g c s e pal mc ns moinp style blocks).1 = p2 := by
  intro p1 p2 xyzfile charge mult m b j g c s e pal mc ns moinp style blocks hne
  exact ⟨rfl, rfl, rfl⟩

/-- Witness for C6 at a concrete job written to two distinct paths. -/
theorem single_step_content_deterministic_witness :
    (write_single_step "runA/mol.inp" "mol.xyz" 0 1 "wB97X-D4" "def2-TZVPPD" "optfreq"
        "DEFGRID3" "" "" [] 32 4000 10 "" "block" []).2 =
      (write_single_step "runB/mol.inp" "mol.xyz" 0 1 "wB97X-D4" "def2-TZVPPD" "optfreq"
        "DEFGRID3" "" "" [] 32 4000 10 "" "block" []).2 :=
  (single_step_content_deterministic "runA/mol.inp" "runB/mol.inp" "mol.xyz" 0 1 "wB97X-D4"
    "def2-TZVPPD" "optfreq" "DEFGRID3" "" "" [] 32 4000 10 "" "block" [] (by decide)).1

/-- C7 (code versus its own comment and the spec): the literal-block reader
applies Python `rstrip()`, which removes trailing spaces and tabs as well,
not only trailing newlines. At the file content `"abc \t\n"` the code
produces `"abc\n"` while the claimed transformation (trim exactly the
trailing newlines, re-append one newline, preserve all other bytes) yields
`"abc \t\n"`; the two differ. -/
theorem read_text_file_strips_all_trailing_whitespace :
    read_text_file_transform "abc \t\n" = "abc\n" ∧
    specTrailingNewlineNormalize "abc \t\n" = "abc \t\n" ∧
    read_text_file_transform "abc \t\n" ≠ specTrailingNewlineNormalize "abc \t\n" ∧
    read_text_file (fun p => if p = "blk.txt" then some "abc \t\n" else none) "blk.txt" =
      Except.ok "abc\n" := by
  refine ⟨by decide, by decide, by decide, rfl⟩

/-- When a listed literal-block file is missing, block collection stops at
the first missing file with an error naming that path. -/
lemma collect_error_of_missing (fs : FileSys) :
    ∀ (files : List String) (p : String), p ∈ files → fs p = none →
      ∃ q, q ∈ files ∧ fs q = none ∧
        collect_global_extra_blocks fs files =
          Except.error ("extra block file not found: " ++ q) := by
  intro files
  induction files with
  | nil => intro p hp; simp at hp
  | cons f rest ih =>
    intro p hp hmiss
    rcases hfs : fs f with _ | t
    · exact ⟨f, List.mem_cons_self f rest, hfs, by
        simp [collect_global_extra_blocks, read_text_file, hfs]⟩
    · have hp' : p ∈ rest := by
        rcases List.mem_cons.mp hp with rfl | h
        · rw [hfs] at hmiss; cases hmiss
        · exact h
      obtain ⟨q, hq, hqm, hcol⟩ := ih p hp' hmiss
      exact ⟨q, List.mem_cons_of_mem f hq, hqm, by
        simp [collect_global_extra_blocks, read_text_file, hfs, hcol]⟩

/-- C8: if one of the referenced literal-block files does not exist, the
single-document assembly raises an error naming a missing path (the first
one encountered) and produces no output file at all — the literal blocks are
all read before the content is composed, so no partial write can occur. -/
theorem missing_block_aborts_assembly :
    ∀ (fs : FileSys) (outpath xyzfile : String) (charge mult : Int)
      (m b j g c s : String) (e : List String) (pal mc ns : Int)
      (moinp style : String) (files : List String) (p : String),
      p ∈ files → fs p = none →
      ∃ q, q ∈ files ∧ fs q = none ∧
        assemble_single_document fs outpath xyzfile charge mult m b j g c s e
            pal mc ns moinp style files =
          Except.error ("extra block file not found: " ++ q) ∧
        ∀ out : String × String,
          assemble_single_document fs outpath xyzfile charge mult m b j g c s e
              pal mc ns moinp style files ≠ Except.ok out := by
  intro fs outpath xyzfile charge mult m b j g c s e pal mc ns moinp style files p hp hmiss
  obtain ⟨q, hq, hqm, hcol⟩ := collect_error_of_missing fs files p hp hmiss
  refine ⟨q, hq, hqm, ?_, ?_⟩
  · simp [assemble_single_document, hcol]
  · intro out
    simp [assemble_single_document, hcol]

/-- Witness for C8: a file system with no files and one referenced block. -/
theorem missing_block_aborts_assembly_witness :
    ∃ q, q ∈ ["blocks.txt"] ∧ (fun _ : String => (none : Option String)) q = none ∧
      assemble_single_document (fun _ => none) "mol.inp" "mol.xyz" 0 1 "wB97X-D4"
          "def2-TZVPPD" "sp" "DEFGRID3" "" "" [] 32 4000 10 "" "block" ["blocks.txt"] =
        Except.error ("extra block file not found: " ++ q) ∧
      ∀ out : String × String,
        assemble_single_document (fun _ => none) "mol.inp" "mol.xyz" 0 1 "wB97X-D4"
            "def2-TZVPPD" "sp" "DEFGRID3" "" "" [] 32 4000 10 "" "block" ["blocks.txt"] ≠
          Except.ok out :=
  missing_block_aborts_assembly (fun _ => none) "mol.inp" "mol.xyz" 0 1 "wB97X-D4"
    "def2-TZVPPD" "sp" "DEFGRID3" "" "" [] 32 4000 10 "" "block" ["blocks.txt"]
    "blocks.txt" (by decide) rfl

/-- Everything the compound writer emits before stage 1's geometry-binding
line: the shared header, the global literal blocks, the `%compound` opener,
and stage 1's elements up to and including its SCF section and its per-stage
literal blocks. -/
def stageOnePrefix (s1 : Step) (B : Nat → List String) (pal mc : Int)
    (style : String) (g : List String) : List CompItem :=
  compoundHeaderItems pal mc style ++
  (if g ≠ [] then [CompItem.globalLiteral (pyRstrip (String.intercalate "\n" g))] else []) ++
  [CompItem.compoundKw, CompItem.newStep, CompItem.bangItem (compound_bang s1)] ++
  (if s1.moinp ≠ "" then [CompItem.moinpItem s1.moinp] else []) ++
  (if s1.job = "tddft" then [CompItem.tddftItem s1.nstates] else []) ++
  [CompItem.scfItem] ++
  (if B 1 ≠ [] then [CompItem.literalItem (pyRstrip (String.intercalate "\n" (B 1)))] else [])

/-- Stages numbered 2 and above never emit a geometry-binding element. -/
lemma compStages_no_geom (B : Nat → List String) (charge mult : Int) (xyz : String) :
    ∀ (steps : List Step) (i : Nat), 2 ≤ i →
      List.countP isGeomBinding (compStages i steps B charge mult xyz) = 0 := by
  intro steps
  induction steps with
  | nil => intro i hi; simp [compStages]
  | cons st rest ih =>
    intro i hi
    have hne : ¬ (i = 1) := by omega
    have h1 : List.countP isGeomBinding
        [CompItem.newStep, CompItem.bangItem (compound_bang st)] = 0 := by
      simp [isGeomBinding]
    have h2 : List.countP isGeomBinding
        (if st.moinp ≠ "" then [CompItem.moinpItem st.moinp] else []) = 0 :=
      countP_ite_singleton_nil _ _ _ rfl
    have h3 : List.countP isGeomBinding
        (if st.job = "tddft" then [CompItem.tddftItem st.nstates] else []) = 0 :=
      countP_ite_singleton_nil _ _ _ rfl
    have h4 : List.countP isGeomBinding
        (if B i ≠ [] then
          [CompItem.literalItem (pyRstrip (String.intercalate "\n" (B i)))] else []) = 0 :=
      countP_ite_singleton_nil _ _ _ rfl
    simp only [compStages, stepItems, List.countP_append, h1, h2, h3, h4, hne,
      ite_false, if_false, ih (i + 1) (by omega)]
    simp [isGeomBinding]

/-- The prefix before stage 1's geometry binding holds no geometry binding. -/
lemma stageOnePrefix_no_geom (s1 : Step) (B : Nat → List String) (pal mc : Int)
    (style : String) (g : List String) :
    List.countP isGeomBinding (stageOnePrefix s1 B pal mc style g) = 0 := by
  have hh : List.countP isGeomBinding (compoundHeaderItems pal mc style) = 0 := by
    by_cases h1 : style = "bang"
    · simp [compoundHeaderItems, h1, isGeomBinding]
    · by_cases h2 : style = "block" <;> simp [compoundHeaderItems, h1, h2, isGeomBinding]
  have hg : List.countP isGeomBinding
      (if g ≠ [] then [CompItem.globalLiteral (pyRstrip (String.intercalate "\n" g))] else []) = 0 :=
    countP_ite_singleton_nil _ _ _ rfl
  have h2 : List.countP isGeomBinding
      (if s1.moinp ≠ "" then [CompItem.moinpItem s1.moinp] else []) = 0 :=
    countP_ite_singleton_nil _ _ _ rfl
  have h3 : List.countP isGeomBinding
      (if s1.job = "tddft" then [CompItem.tddftItem s1.nstates] else []) = 0 :=
    countP_ite_singleton_nil _ _ _ rfl
  have h4 : List.countP isGeomBinding
      (if B 1 ≠ [] then
        [CompItem.literalItem (pyRstrip (String.intercalate "\n" (B 1)))] else []) = 0 :=
    countP_ite_singleton_nil _ _ _ rfl
  simp only [stageOnePrefix, List.countP_append, hh, hg, h2, h3, h4]
  simp [isGeomBinding]

/-- C2: for every compound document with at least one stage, the emitted
element sequence splits as: the stage-1 prefix (header, global blocks,
`%compound`, stage 1's directive line, restart section, excited-state and SCF
sections, per-stage literal blocks), then the geometry-binding element,
then stage 1's end marker, then stages 2..N and the run terminator; the
prefix and stages 2..N contain no geometry binding, stage 1's SCF section
lies in the prefix, and the whole document contains the geometry-binding
element exactly once. -/
theorem compound_geometry_binding_once :
    ∀ (s1 : Step) (rest : List Step) (B : Nat → List String) (charge mult : Int)
      (xyz : String) (pal mc : Int) (style : String) (g : List String),
      compoundDocumentItems (s1 :: rest) B charge mult xyz pal mc style g =
        stageOnePrefix s1 B pal mc style g ++
        [CompItem.geomBinding charge mult xyz, CompItem.stepEnd] ++
        (compStages 2 rest B charge mult xyz ++ [CompItem.endRun]) ∧
      List.countP isGeomBinding (stageOnePrefix s1 B pal mc style g) = 0 ∧
      CompItem.scfItem ∈ stageOnePrefix s1 B pal mc style g ∧
      List.countP isGeomBinding (compStages 2 rest B charge mult xyz) = 0 ∧
      List.countP isGeomBinding
        (compoundDocumentItems (s1 :: rest) B charge mult xyz pal mc style g) = 1 := by
  intro s1 rest B charge mult xyz pal mc style g
  have hstruct : compoundDocumentItems (s1 :: rest) B charge mult xyz pal mc style g =
      stageOnePrefix s1 B pal mc style g ++
      [CompItem.geomBinding charge mult xyz, CompItem.stepEnd] ++
      (compStages 2 rest B charge mult xyz ++ [CompItem.endRun]) := by
    simp [compoundDocumentItems, compItems, compStages, stepItems, stageOnePrefix,
      List.append_assoc]
  refine ⟨hstruct, stageOnePrefix_no_geom s1 B pal mc style g, ?_,
    compStages_no_geom B charge mult xyz rest 2 (by omega), ?_⟩
  · simp [stageOnePrefix, List.mem_append]
  · rw [hstruct]
    simp only [List.countP_append, stageOnePrefix_no_geom,
      compStages_no_geom B charge mult xyz rest 2 (by omega)]
    simp [isGeomBinding]

end OrcaMkInput
